import Mathlib

/-!
Verification of the explainflow trace-capture engine against its
specification.  The definitions below are a shallow embedding of
`src/explainflow/models.py` and `src/explainflow/tracer.py`:

* Python runtime values are modelled by the `Value` structure carrying the
  observable features the tracer consults: the result of `repr` (and whether
  `repr` succeeds), the result of `str`, whether the object is the `None`
  singleton, whether it is callable, whether it bears the
  `__explainflow_traced__` attribute, and its truthiness.  Python value
  equality (`!=`) is modelled by structural (decidable) equality on `Value`.
  `copy.deepcopy` is modelled by the identity, since model values are
  immutable; the `_is_copyable` guard in `Variable.from_value` is therefore
  invisible (both branches keep the same value).
* The `sys.settrace` event stream produced by executing the compiled source
  is modelled by a list of `PyEvent`s together with a `RunOutcome`
  (normal completion or a propagating exception) and the final `exec`
  locals; a `CompileResult` is either such a run or a compile-time syntax
  error.  Output written by the traced program to the redirected stdout is
  modelled by an append-only buffer: each event carries the text written
  since the previous event, and `trailingOutput` is whatever is written
  after the last delivered event.
* `Tracer.trace` returns `Except PyExc ExecutionTrace`: the Python method
  catches `Exception` but not bare `BaseException`s (`SystemExit`,
  `KeyboardInterrupt`), which propagate to the caller; this is the
  `.error` case.
-/

set_option maxRecDepth 100000

/-- The step classification, from `models.StepType`. -/
inductive StepType where
  | LINE
  | CALL
  | RETURN
  | EXCEPTION
  | ASSIGNMENT
  | LOOP_START
  | LOOP_ITERATION
  | LOOP_END
  | CONDITION
deriving DecidableEq, Repr

/-- Model of a Python runtime value, as observed by the tracer.
`reprOk = false` models a value whose `repr` raises; `reprStr` is the
rendering when it succeeds.  `isNone` marks the `None` singleton, `callable`
the result of `callable(v)`, `traced` the presence of the
`__explainflow_traced__` attribute, `truthy` the result of `bool(v)`. -/
structure Value where
  typeName : String
  reprOk : Bool
  reprStr : String
  strStr : String
  isNone : Bool
  callable : Bool
  traced : Bool
  truthy : Bool
deriving DecidableEq, Repr

/-- The Python `None` singleton. -/
def pyNone : Value :=
  { typeName := "NoneType", reprOk := true, reprStr := "None", strStr := "None",
    isNone := true, callable := false, traced := false, truthy := false }

/-- Convenience constructor for ordinary (non-None, non-callable) values. -/
def mkVal (t r : String) : Value :=
  { typeName := t, reprOk := true, reprStr := r, strStr := r,
    isNone := false, callable := false, traced := false, truthy := true }

/-- A propagating Python exception: `excTypeName` is `type(e).__name__`,
`message` is `str(e)`, and `isException` records whether `e` is an instance
of `Exception` (as opposed to a bare `BaseException` such as `SystemExit`). -/
structure PyExc where
  excTypeName : String
  message : String
  isException : Bool
deriving DecidableEq, Repr

/-- `models.Variable`: one captured variable snapshot. -/
structure Variable where
  name : String
  value : Value
  type_name : String
  repr_value : String
  changed : Bool
deriving DecidableEq, Repr

/-- The truncation applied by `Variable.from_value`:
`if len(repr_val) > 100: repr_val = repr_val[:97] + "..."`. -/
def truncateRepr (s : String) : String :=
  if s.length > 100 then String.mk (s.data.take 97) ++ "..." else s

/-- `models.Variable.from_value`.  The `try: repr(value) except:` guard is
the `reprOk` test; `changed = previous_value is not None and
previous_value != value`; `copy.deepcopy` is the identity on model values. -/
def Variable.from_value (name : String) (value : Value) (previous_value : Value := pyNone) :
    Variable :=
  let repr_val := if value.reprOk then truncateRepr value.reprStr else "<repr error>"
  { name := name,
    value := value,
    type_name := value.typeName,
    repr_value := repr_val,
    changed := !previous_value.isNone && previous_value != value }

/-- `models.ExecutionStep`. -/
structure ExecutionStep where
  step_number : Nat
  line_number : Nat
  line_content : String
  step_type : StepType
  vars : List (String × Variable)
  output : String
  return_value : Value
  exception : Option PyExc
  function_name : Option String
  call_depth : Nat
  explanation : String
deriving DecidableEq, Repr

/-- `models.ExecutionTrace`. -/
structure ExecutionTrace where
  code : String
  steps : List ExecutionStep
  final_output : String
  final_vars : List (String × Variable)
  success : Bool
  error_message : String
  total_lines : Nat
deriving DecidableEq, Repr

/-- The four event kinds delivered by `sys.settrace`. -/
inductive EventKind where
  | call
  | line
  | ret
  | exc
deriving DecidableEq, Repr

/-- One `sys.settrace` event.  `inTracedFile` models
`frame.f_code.co_filename == self.traced_filename`; `locals` models
`frame.f_locals`; `arg` is the event argument (Python passes `None` for
call/line events, the return value for return events, the exception info
for exception events); `outputBefore` is the text the traced program wrote
to the redirected stdout since the previous event. -/
structure PyEvent where
  kind : EventKind
  inTracedFile : Bool
  lineNo : Nat
  funcName : String
  locals : List (String × Value)
  arg : Value
  outputBefore : String
deriving DecidableEq, Repr

/-- Outcome of executing the compiled source under `exec`. -/
inductive RunOutcome where
  | normal
  | raises (e : PyExc)
deriving DecidableEq, Repr

/-- The dynamic behaviour of one `exec` of successfully compiled source:
the delivered event stream, the output written after the last event, the
outcome, and `exec_locals` as left behind at the end. -/
structure ProgramRun where
  events : List PyEvent
  trailingOutput : String
  outcome : RunOutcome
  finalLocals : List (String × Value)
deriving DecidableEq, Repr

/-- Result of `compile(code, ..., 'exec')`: a run of the compiled code, or a
`SyntaxError` carrying `e.msg` and `e.lineno`. -/
inductive CompileResult where
  | ok (run : ProgramRun)
  | parseError (msg : String) (lineno : Nat)
deriving DecidableEq, Repr

/-- Mutable state of one `Tracer.trace` invocation (the fields reset at the
top of `Tracer.trace`, plus `max_steps` and the split source lines). -/
structure TracerState where
  max_steps : Nat
  code_lines : List String
  steps : List ExecutionStep
  step_count : Nat
  previous_vars : List (String × Value)
  current_vars : List (String × Variable)
  output_buffer : String
  call_depth : Nat
  stopped : Bool
deriving DecidableEq, Repr

/-- First-match association-list lookup, modelling Python dict indexing. -/
def lookupVal (name : String) : List (String × Value) → Option Value
  | [] => none
  | (n, v) :: rest => if n = name then some v else lookupVal name rest

/-- First-match association-list lookup into a vars map. -/
def lookupVar (name : String) : List (String × Variable) → Option Variable
  | [] => none
  | (n, v) :: rest => if n = name then some v else lookupVar name rest

/-- `self.previous_variables.get(name)`: Python `dict.get` returns `None`
when the key is absent. -/
def pyGetDefault (m : List (String × Value)) (name : String) : Value :=
  match lookupVal name m with
  | some v => v
  | none => pyNone

/-- Whether the first list is an initial run of the second. -/
def chrPrefix : List Char → List Char → Bool
  | [], _ => true
  | _ :: _, [] => false
  | c :: cs, d :: ds => c = d && chrPrefix cs ds

/-- Whether `pat` occurs as a contiguous run inside `s`. -/
def chrInfix (pat : List Char) : List Char → Bool
  | [] => pat.isEmpty
  | d :: ds => chrPrefix pat (d :: ds) || chrInfix pat ds

/-- Python substring containment `pat in s`. -/
def strContains (s pat : String) : Bool :=
  chrInfix pat.data s.data

/-- Python `s.startswith(pre)`. -/
def strStarts (s pre : String) : Bool :=
  chrPrefix pre.data s.data

/-- Drop leading whitespace characters. -/
def dropWs : List Char → List Char
  | [] => []
  | c :: cs => if c.isWhitespace then dropWs cs else c :: cs

/-- Python `s.strip()`: remove leading and trailing whitespace. -/
def pyStrip (s : String) : String :=
  String.mk (List.reverse (dropWs (List.reverse (dropWs s.data))))

/-- Helper for `pySplitNl`: accumulates the current (reversed) chunk. -/
def splitNlAux (acc : List Char) : List Char → List String
  | [] => [String.mk acc.reverse]
  | c :: cs =>
    if c = (Char.ofNat 10) then String.mk acc.reverse :: splitNlAux [] cs
    else splitNlAux (c :: acc) cs

/-- Python `s.split(chr(10))`: split on newline characters. -/
def pySplitNl (s : String) : List String :=
  splitNlAux [] s.data

/-- The characters before the first `=`, i.e. `s.split('=', 1)[0]`. -/
def beforeFirstEq : List Char → List Char
  | [] => []
  | c :: cs => if c = '=' then [] else c :: beforeFirstEq cs

/-- `Tracer._determine_line_type`. -/
def determineLineType (line_content : String) : StepType :=
  let stripped := pyStrip line_content
  if stripped.data.isEmpty || strStarts stripped "#" then
    .LINE
  else if strContains stripped "=" &&
      !(["==", "!=", "<=", ">=", "+=", "-=", "*=", "/="].any (strContains stripped)) then
    .ASSIGNMENT
  else if ["+=", "-=", "*=", "/=", "//=", "%=", "**=", "&=", "|=", "^="].any
      (strContains stripped) then
    .ASSIGNMENT
  else if strStarts stripped "for " || strStarts stripped "while " then
    .LOOP_START
  else if strStarts stripped "if " || strStarts stripped "elif " ||
      strStarts stripped "else" then
    .CONDITION
  else
    .LINE

/-- One entry of `Tracer._capture_variables`' loop body: `None` when the
binding is skipped (internal name, or non-traced callable), otherwise the
snapshot built with the previous live value for that name. -/
def captureOne (previous_vars : List (String × Value)) (nv : String × Value) :
    Option (String × Variable) :=
  if strStarts nv.1 "_" then none
  else if nv.2.callable && !nv.2.traced then none
  else some (nv.1, Variable.from_value nv.1 nv.2 (pyGetDefault previous_vars nv.1))

/-- `Tracer._capture_variables`: returns the captured variables map and
the updated previous-variables cache, one `(name, var.value)` pair per entry. -/
def captureVariables (previous_vars : List (String × Value))
    (locals : List (String × Value)) :
    List (String × Variable) × List (String × Value) :=
  let vars := locals.filterMap (captureOne previous_vars)
  (vars, vars.map (fun nv => (nv.1, nv.2.value)))

/-- `Tracer._generate_explanation`. -/
def generateExplanation (step_type : StepType) (line_content : String)
    (vars : List (String × Variable)) (arg : Value) : String :=
  let stripped := pyStrip line_content
  match step_type with
  | .ASSIGNMENT =>
    match (vars.map Prod.snd).filter (fun v => v.changed) with
    | var :: _ => "Set " ++ var.name ++ " to " ++ var.repr_value
    | [] =>
      if strContains stripped "=" then
        let var_name := pyStrip (String.mk (beforeFirstEq stripped.data))
        match lookupVar var_name vars with
        | some v => "Set " ++ var_name ++ " to " ++ v.repr_value
        | none => "Assignment: " ++ stripped
      else
        "Assignment: " ++ stripped
  | .LOOP_START =>
    if strStarts stripped "for " then "Starting loop: " ++ stripped
    else "Checking loop condition: " ++ stripped
  | .CONDITION => "Evaluating condition: " ++ stripped
  | .CALL => "Calling function"
  | .RETURN =>
    if !arg.isNone then "Returning: " ++ arg.reprStr
    else "Returning from function"
  | .EXCEPTION =>
    if arg.truthy then "Exception: " ++ arg.strStr
    else "Exception occurred"
  | _ => if !stripped.data.isEmpty then "Executing: " ++ stripped else "Empty line"

/-- Line-content resolution in `Tracer._trace_callback`:
`self.code_lines[line_no - 1]` when `1 <= line_no <= len(self.code_lines)`,
else the empty string. -/
def getLineContent (code_lines : List String) (line_no : Nat) : String :=
  if 1 ≤ line_no ∧ line_no ≤ code_lines.length then code_lines.getD (line_no - 1) ""
  else ""

/-- The call-depth update in `Tracer._trace_callback`: `+1` on call,
`max(0, d - 1)` on return (`Nat` subtraction floors at 0). -/
def newCallDepth (k : EventKind) (d : Nat) : Nat :=
  match k with
  | .call => d + 1
  | .ret => d - 1
  | _ => d

/-- Step classification in `Tracer._trace_callback`: call/return/exception
events map directly, line events go through the text heuristic. -/
def stepTypeOf (k : EventKind) (line_content : String) : StepType :=
  match k with
  | .call => .CALL
  | .ret => .RETURN
  | .exc => .EXCEPTION
  | .line => determineLineType line_content

/-- The `ExecutionStep` recorded by `Tracer._trace_callback` for a traced
event, given the state before the event (unset constructor arguments keep
their Python dataclass defaults: `exception=None`, and `return_value` is
`arg if event == 'return' else None`). -/
def mkStep (st : TracerState) (ev : PyEvent) : ExecutionStep :=
  let line_content := getLineContent st.code_lines ev.lineNo
  let step_type := stepTypeOf ev.kind line_content
  let vars := (captureVariables st.previous_vars ev.locals).1
  { step_number := st.step_count + 1,
    line_number := ev.lineNo,
    line_content := line_content,
    step_type := step_type,
    vars := vars,
    output := st.output_buffer,
    return_value := if ev.kind = .ret then ev.arg else pyNone,
    exception := none,
    function_name := if ev.funcName = "<module>" then none else some ev.funcName,
    call_depth := newCallDepth ev.kind st.call_depth,
    explanation := generateExplanation step_type line_content vars ev.arg }

/-- The state update performed by the recording branch of
`Tracer._trace_callback`. -/
def recordStep (st : TracerState) (ev : PyEvent) : TracerState :=
  { st with
    steps := st.steps ++ [mkStep st ev],
    step_count := st.step_count + 1,
    previous_vars := (captureVariables st.previous_vars ev.locals).2,
    current_vars := (captureVariables st.previous_vars ev.locals).1,
    call_depth := newCallDepth ev.kind st.call_depth }

/-- `Tracer._trace_callback` as a state transformer: latch stop when the
ceiling has been reached, skip frames outside the traced file, otherwise
record a step. -/
def traceCallback (st : TracerState) (ev : PyEvent) : TracerState :=
  if st.stopped = true ∨ st.max_steps ≤ st.step_count then
    { st with stopped := true }
  else if ev.inTracedFile = false then
    st
  else
    recordStep st ev

/-- Delivery of one event: the output written since the previous event is
appended to the redirected-stdout buffer, then the callback runs. -/
def processEvent (st : TracerState) (ev : PyEvent) : TracerState :=
  traceCallback { st with output_buffer := st.output_buffer ++ ev.outputBefore } ev

/-- Delivery of the whole event stream, in dynamic order. -/
def runEvents (st : TracerState) : List PyEvent → TracerState
  | [] => st
  | ev :: rest => runEvents (processEvent st ev) rest

/-- The state at the top of `Tracer.trace`, after the reset assignments. -/
def initState (max_steps : Nat) (code_lines : List String) : TracerState :=
  { max_steps := max_steps, code_lines := code_lines, steps := [], step_count := 0,
    previous_vars := [], current_vars := [], output_buffer := "",
    call_depth := 0, stopped := false }

/-- The final-variable table built at the end of `Tracer.trace`: every
`exec_locals` binding whose name does not start with an underscore, with no
previous value. -/
def buildFinalVars (locals : List (String × Value)) : List (String × Variable) :=
  locals.filterMap fun nv =>
    if strStarts nv.1 "_" then none
    else some (nv.1, Variable.from_value nv.1 nv.2 pyNone)

/-- The synthetic final EXCEPTION step appended by `Tracer.trace` when an
uncaught `Exception` escapes and at least one step was recorded. -/
def exceptionStep (st : TracerState) (last_step : ExecutionStep) (e : PyExc) :
    ExecutionStep :=
  { step_number := st.steps.length + 1,
    line_number := last_step.line_number,
    line_content := last_step.line_content,
    step_type := .EXCEPTION,
    vars := st.current_vars,
    output := "",
    return_value := pyNone,
    exception := some e,
    function_name := none,
    call_depth := 0,
    explanation := "Exception raised: " ++ (e.excTypeName ++ ": " ++ e.message) }

/-- `Tracer.trace`.  The compile/execute behaviour of the source is passed
as a `CompileResult`.  A `SyntaxError` yields the zero-step failure trace
and never runs the event callback (the `.ok` branch alone consumes events).
Otherwise the event stream is delivered; on normal completion a success
trace is assembled, on a propagating `Exception` a failure trace with the
synthetic EXCEPTION step (when steps exist) is assembled, and a propagating
bare `BaseException` (`isException = false`) escapes `except Exception` and
propagates to the caller (`.error`). -/
def Tracer.trace (max_steps : Nat) (code : String) (compiled : CompileResult) :
    Except PyExc ExecutionTrace :=
  let code_lines := pySplitNl (pyStrip code)
  match compiled with
  | .parseError msg lineno =>
    .ok { code := code, steps := [], final_output := "", final_vars := [],
          success := false,
          error_message := "SyntaxError: " ++ msg ++ " (line " ++ toString lineno ++ ")",
          total_lines := code_lines.length }
  | .ok run =>
    let st := runEvents (initState max_steps code_lines) run.events
    let final_output := st.output_buffer ++ run.trailingOutput
    match run.outcome with
    | .normal =>
      .ok { code := code, steps := st.steps, final_output := final_output,
            final_vars := buildFinalVars run.finalLocals,
            success := true, error_message := "", total_lines := code_lines.length }
    | .raises e =>
      if e.isException then
        let error_message := e.excTypeName ++ ": " ++ e.message
        let steps :=
          match st.steps.getLast? with
          | some last_step => st.steps ++ [exceptionStep st last_step e]
          | none => st.steps
        .ok { code := code, steps := steps, final_output := final_output,
              final_vars := buildFinalVars run.finalLocals,
              success := false, error_message := error_message,
              total_lines := code_lines.length }
      else
        .error e

/-- The well-formedness of a captured variables map: no internally-named
binding, no callable binding without the trace-target mark (claim C9's
property). -/
def VarsOk (m : List (String × Variable)) : Prop :=
  ∀ p ∈ m, strStarts p.1 "_" = false ∧ (p.2.value.callable = true → p.2.value.traced = true)

/-- The invariant maintained by the step recorder across event delivery:
step counter equals the number of recorded steps, the counter never exceeds
the ceiling, step numbers are exactly `1..N`, all captured variable maps are
well-formed, and recorded outputs grow monotonically and stay within the
output buffer. -/
def StepsWF (st : TracerState) : Prop :=
  st.step_count = st.steps.length ∧
  st.step_count ≤ st.max_steps ∧
  st.steps.map ExecutionStep.step_number = List.range' 1 st.steps.length ∧
  VarsOk st.current_vars ∧
  (∀ s ∈ st.steps, VarsOk s.vars) ∧
  st.steps.Pairwise (fun a b => a.output.data <+: b.output.data) ∧
  (∀ s ∈ st.steps, s.output.data <+: st.output_buffer.data)

/-- The callback-recorded portion of a trace: the recorder state after the
whole event stream has been delivered. -/
def cbState (max_steps : Nat) (code : String) (run : ProgramRun) : TracerState :=
  runEvents (initState max_steps (pySplitNl (pyStrip code))) run.events

/-- Whether the compiled behaviour ends in a propagating bare
`BaseException` (one that is not an `Exception`). -/
def raisesBaseOnly : CompileResult → Bool
  | .ok run =>
    match run.outcome with
    | .raises e => !e.isException
    | .normal => false
  | .parseError _ _ => false

/-! ## Concrete fixtures used by counterexamples and witnesses -/

def fxFive : Value := mkVal "int" "5"

def fxSeven : Value := mkVal "int" "7"

def fxLongStr : Value := mkVal "str" (String.mk (List.replicate 200 'a'))

def fxBadRepr : Value :=
  { typeName := "Weird", reprOk := false, reprStr := "", strStr := "",
    isNone := false, callable := false, traced := false, truthy := true }

def fxCall : PyEvent :=
  { kind := .call, inTracedFile := true, lineNo := 1, funcName := "<module>",
    locals := [], arg := pyNone, outputBefore := "" }

def fxLine1 : PyEvent :=
  { kind := .line, inTracedFile := true, lineNo := 1, funcName := "<module>",
    locals := [], arg := pyNone, outputBefore := "" }

def fxLine2 : PyEvent :=
  { kind := .line, inTracedFile := true, lineNo := 2, funcName := "<module>",
    locals := [("x", fxFive)], arg := pyNone, outputBefore := "hi" }

def fxZde : PyExc :=
  { excTypeName := "ZeroDivisionError", message := "division by zero", isException := true }

def fxSysExit : PyExc :=
  { excTypeName := "SystemExit", message := "1", isException := false }

def fxRunOk : ProgramRun :=
  { events := [fxCall, fxLine1, fxLine2], trailingOutput := "bye",
    outcome := .normal, finalLocals := [("x", fxFive)] }

def fxRunErr : ProgramRun :=
  { events := [fxCall, fxLine1, fxLine2], trailingOutput := "",
    outcome := .raises fxZde, finalLocals := [("x", fxFive)] }

def fxRunExit : ProgramRun :=
  { events := [fxCall], trailingOutput := "",
    outcome := .raises fxSysExit, finalLocals := [] }

/-! ## Basic lemmas about the embedded operations -/

theorem from_value_value (name : String) (v p : Value) :
    (Variable.from_value name v p).value = v := rfl

theorem from_value_name (name : String) (v p : Value) :
    (Variable.from_value name v p).name = name := rfl

theorem from_value_changed (name : String) (v p : Value) :
    (Variable.from_value name v p).changed = (!p.isNone && p != v) := rfl

theorem from_value_repr (name : String) (v p : Value) :
    (Variable.from_value name v p).repr_value =
      if v.reprOk then truncateRepr v.reprStr else "<repr error>" := rfl

theorem str_data_append (a b : String) : (a ++ b).data = a.data ++ b.data :=
  String.data_append a b

theorem listPrefSelf {α : Type} (l : List α) : l <+: l := ⟨[], List.append_nil l⟩

theorem listPrefExtend {α : Type} (l t : List α) : l <+: l ++ t := ⟨t, rfl⟩

theorem range'_one_concat (n : Nat) :
    List.range' 1 (n + 1) = List.range' 1 n ++ [n + 1] := by
  rw [List.range'_concat]
  congr 2
  omega

theorem varsOk_captureVariables (prev locals : List (String × Value)) :
    VarsOk (captureVariables prev locals).1 := by
  intro p hp
  unfold captureVariables at hp
  simp only at hp
  obtain ⟨a, _, hfa⟩ := List.mem_filterMap.mp hp
  unfold captureOne at hfa
  split at hfa
  · exact absurd hfa (by simp)
  · split at hfa
    · exact absurd hfa (by simp)
    · rename_i hu hcall
      injection hfa with hfa
      subst hfa
      refine ⟨by simpa using hu, ?_⟩
      intro hc
      rw [from_value_value] at hc ⊢
      by_contra ht
      rw [Bool.not_eq_true] at ht
      exact hcall (by simp [hc, ht])

theorem stepsWF_initState (max_steps : Nat) (code_lines : List String) :
    StepsWF (initState max_steps code_lines) := by
  refine ⟨rfl, Nat.zero_le _, rfl, ?_, ?_, ?_, ?_⟩ <;> simp [initState, VarsOk]

theorem stepsWF_bufferAppend (st : TracerState) (o : String) (h : StepsWF st) :
    StepsWF { st with output_buffer := st.output_buffer ++ o } := by
  obtain ⟨h1, h2, h3, h4, h5, h6, h7⟩ := h
  refine ⟨h1, h2, h3, h4, h5, h6, ?_⟩
  intro s hs
  have := h7 s hs
  rw [str_data_append]
  exact this.trans (listPrefExtend _ _)

theorem stepsWF_traceCallback (st : TracerState) (ev : PyEvent) (h : StepsWF st) :
    StepsWF (traceCallback st ev) := by
  obtain ⟨h1, h2, h3, h4, h5, h6, h7⟩ := h
  unfold traceCallback
  split
  · exact ⟨h1, h2, h3, h4, h5, h6, h7⟩
  · split
    · exact ⟨h1, h2, h3, h4, h5, h6, h7⟩
    · rename_i hc _
      push_neg at hc
      obtain ⟨_, hlt⟩ := hc
      refine ⟨?_, ?_, ?_, ?_, ?_, ?_, ?_⟩
      · simp [recordStep, h1]
      · simpa [recordStep] using hlt
      · simp only [recordStep, List.map_append, List.length_append, List.map_cons,
          List.map_nil, List.length_cons, List.length_nil]
        rw [h3, show (mkStep st ev).step_number = st.step_count + 1 from rfl, h1,
          range'_one_concat]
      · exact varsOk_captureVariables _ _
      · intro s hs
        rcases List.mem_append.mp hs with hs | hs
        · exact h5 s hs
        · rw [List.mem_singleton.mp hs]
          exact varsOk_captureVariables _ _
      · rw [show (recordStep st ev).steps = st.steps ++ [mkStep st ev] from rfl,
          List.pairwise_append]
        refine ⟨h6, List.pairwise_singleton _ _, ?_⟩
        intro a ha b hb
        rw [List.mem_singleton.mp hb]
        exact h7 a ha
      · intro s hs
        rcases List.mem_append.mp hs with hs | hs
        · exact h7 s hs
        · rw [List.mem_singleton.mp hs]
          exact listPrefSelf _

theorem stepsWF_processEvent (st : TracerState) (ev : PyEvent) (h : StepsWF st) :
    StepsWF (processEvent st ev) :=
  stepsWF_traceCallback _ _ (stepsWF_bufferAppend st ev.outputBefore h)

theorem stepsWF_runEvents (evs : List PyEvent) (st : TracerState) (h : StepsWF st) :
    StepsWF (runEvents st evs) := by
  induction evs generalizing st with
  | nil => exact h
  | cons ev rest ih => exact ih _ (stepsWF_processEvent _ _ h)

theorem steps_pref_processEvent (st : TracerState) (ev : PyEvent) :
    st.steps <+: (processEvent st ev).steps := by
  unfold processEvent traceCallback
  split
  · exact listPrefSelf _
  · split
    · exact listPrefSelf _
    · exact listPrefExtend _ _

theorem steps_pref_runEvents (evs : List PyEvent) (st : TracerState) :
    st.steps <+: (runEvents st evs).steps := by
  induction evs generalizing st with
  | nil => exact listPrefSelf _
  | cons ev rest ih => exact (steps_pref_processEvent st ev).trans (ih _)

theorem runEvents_max_steps (evs : List PyEvent) (st : TracerState) :
    (runEvents st evs).max_steps = st.max_steps := by
  induction evs generalizing st with
  | nil => rfl
  | cons ev rest ih =>
    rw [show runEvents st (ev :: rest) = runEvents (processEvent st ev) rest from rfl, ih]
    unfold processEvent traceCallback
    split
    · rfl
    · split <;> rfl

/-- Once delivered a traced event while the ceiling is not yet reached, the
recorder has recorded at least one step, and recorded steps are never
removed. -/
theorem runEvents_steps_ne_nil (evs : List PyEvent) (st : TracerState)
    (hstop : st.stopped = false) (hcount : st.step_count < st.max_steps)
    (hev : ∃ ev ∈ evs, ev.inTracedFile = true) :
    (runEvents st evs).steps ≠ [] := by
  induction evs generalizing st with
  | nil => simp at hev
  | cons ev rest ih =>
    rw [show runEvents st (ev :: rest) = runEvents (processEvent st ev) rest from rfl]
    by_cases hf : ev.inTracedFile = true
    · have hrec : (processEvent st ev).steps =
          st.steps ++ [mkStep { st with output_buffer := st.output_buffer ++ ev.outputBefore } ev] := by
        unfold processEvent traceCallback
        rw [if_neg, if_neg]
        · rfl
        · simp [hf]
        · simp only
          push_neg
          exact ⟨by simp [hstop], hcount⟩
      obtain ⟨tl, htl⟩ := steps_pref_runEvents rest (processEvent st ev)
      intro hnil
      rw [hnil] at htl
      have := List.append_eq_nil.mp htl
      rw [hrec] at this
      exact absurd (List.append_eq_nil.mp this.1).2 (by simp)
    · have hskip : processEvent st ev =
          { st with output_buffer := st.output_buffer ++ ev.outputBefore } := by
        unfold processEvent traceCallback
        rw [if_neg, if_pos]
        · simpa using hf
        · simp only
          push_neg
          exact ⟨by simp [hstop], hcount⟩
      rw [hskip]
      refine ih _ hstop hcount ?_
      obtain ⟨w, hw, hwt⟩ := hev
      rcases List.mem_cons.mp hw with h | h
      · exact absurd (h ▸ hwt) hf
      · exact ⟨w, h, hwt⟩

theorem stepsWF_cbState (max_steps : Nat) (code : String) (run : ProgramRun) :
    StepsWF (cbState max_steps code run) :=
  stepsWF_runEvents _ _ (stepsWF_initState _ _)

theorem cbState_max_steps (max_steps : Nat) (code : String) (run : ProgramRun) :
    (cbState max_steps code run).max_steps = max_steps :=
  runEvents_max_steps _ _

/-- `Tracer.trace` on a normally-completing run. -/
theorem trace_normal (max_steps : Nat) (code : String) (run : ProgramRun)
    (h : run.outcome = .normal) :
    Tracer.trace max_steps code (.ok run) =
      .ok { code := code, steps := (cbState max_steps code run).steps,
            final_output := (cbState max_steps code run).output_buffer ++ run.trailingOutput,
            final_vars := buildFinalVars run.finalLocals,
            success := true, error_message := "",
            total_lines := (pySplitNl (pyStrip code)).length } := by
  obtain ⟨evs, tr, outc, fl⟩ := run
  obtain rfl : outc = .normal := h
  rfl

/-- `Tracer.trace` on a run terminated by a propagating `Exception`. -/
theorem trace_raises_exc (max_steps : Nat) (code : String) (run : ProgramRun) (e : PyExc)
    (h : run.outcome = .raises e) (he : e.isException = true) :
    Tracer.trace max_steps code (.ok run) =
      .ok { code := code,
            steps :=
              match (cbState max_steps code run).steps.getLast? with
              | some last_step =>
                (cbState max_steps code run).steps ++
                  [exceptionStep (cbState max_steps code run) last_step e]
              | none => (cbState max_steps code run).steps,
            final_output := (cbState max_steps code run).output_buffer ++ run.trailingOutput,
            final_vars := buildFinalVars run.finalLocals,
            success := false, error_message := e.excTypeName ++ ": " ++ e.message,
            total_lines := (pySplitNl (pyStrip code)).length } := by
  obtain ⟨evs, tr, outc, fl⟩ := run
  obtain rfl : outc = .raises e := h
  simp only [Tracer.trace, cbState, he, if_true]

/-- `Tracer.trace` on a run terminated by a propagating bare
`BaseException`: `except Exception` does not catch it. -/
theorem trace_raises_base (max_steps : Nat) (code : String) (run : ProgramRun) (e : PyExc)
    (h : run.outcome = .raises e) (he : e.isException = false) :
    Tracer.trace max_steps code (.ok run) = .error e := by
  obtain ⟨evs, tr, outc, fl⟩ := run
  obtain rfl : outc = .raises e := h
  simp only [Tracer.trace, he]
  rfl

/-! ## C1: the changed flag -/

/-- C1 counterexample: after a captured step bound `x` to the value `None`,
a next capture of `x = 5` yields `changed = false`, although a same-named
binding existed in the immediately preceding captured step and its value
(`None`) compares unequal to the current value (`5`).  The code's
`previous_value is not None` guard conflates "no previous binding" with
"previous binding was `None`". -/
theorem c1_changed_counterexample :
    (lookupVar "x" (captureVariables (captureVariables [] [("x", pyNone)]).2
        [("x", fxFive)]).1).map Variable.changed = some false ∧
    lookupVal "x" (captureVariables [] [("x", pyNone)]).2 = some pyNone ∧
    pyNone ≠ fxFive := by decide

/-- C1 (amended): a captured snapshot's `changed` flag is true iff the
previous captured value for the name exists, is not the `None` value, and
compares unequal (by value) to the current value.  (The unamended claim
fails when the previous value was `None`: `dict.get` returns `None` for an
absent key, and `Variable.from_value` treats a `None` previous value as "no
previous binding".) -/
theorem c1_changed_amended (prev locals : List (String × Value)) (name : String)
    (var : Variable)
    (h : lookupVar name (captureVariables prev locals).1 = some var) :
    var.changed = true ↔
      ((pyGetDefault prev name).isNone = false ∧ pyGetDefault prev name ≠ var.value) := by
  unfold captureVariables at h
  simp only at h
  induction locals with
  | nil => simp [List.filterMap, lookupVar] at h
  | cons a rest ih =>
    rw [List.filterMap_cons] at h
    cases hfa : captureOne prev a with
    | none =>
      rw [hfa] at h
      exact ih h
    | some p =>
      rw [hfa] at h
      obtain ⟨pn, pv⟩ := p
      rw [lookupVar] at h
      by_cases hn : pn = name
      · rw [if_pos hn] at h
        injection h with h
        subst h
        unfold captureOne at hfa
        split at hfa
        · exact absurd hfa (by simp)
        · split at hfa
          · exact absurd hfa (by simp)
          · rw [Option.some.injEq, Prod.mk.injEq] at hfa
            obtain ⟨h1, h2⟩ := hfa
            subst hn
            rw [← h2, ← h1]
            simp [from_value_changed, from_value_value, bne_iff_ne]
      · rw [if_neg hn] at h
        exact ih h

/-- C1 witness: a previous binding `y = 1` followed by `y = 2` is marked
changed, instantiating the amended equivalence at a concrete input. -/
theorem c1_changed_amended_witness :
    lookupVar "y" (captureVariables [("y", mkVal "int" "1")] [("y", mkVal "int" "2")]).1 =
      some (Variable.from_value "y" (mkVal "int" "2") (mkVal "int" "1")) ∧
    ((Variable.from_value "y" (mkVal "int" "2") (mkVal "int" "1")).changed = true ↔
      ((pyGetDefault [("y", mkVal "int" "1")] "y").isNone = false ∧
        pyGetDefault [("y", mkVal "int" "1")] "y" ≠
          (Variable.from_value "y" (mkVal "int" "2") (mkVal "int" "1")).value)) :=
  ⟨by decide,
    c1_changed_amended [("y", mkVal "int" "1")] [("y", mkVal "int" "2")] "y"
      (Variable.from_value "y" (mkVal "int" "2") (mkVal "int" "1")) (by decide)⟩

/-! ## C5: truncation of the printable representation -/

/-- C5 counterexample: for a value whose rendering is 200 characters, the
code truncates to the first 97 characters plus a three-character ellipsis
(100 characters in total), not to the first 100 characters plus an ellipsis
(103 characters) as the claim states. -/
theorem c5_truncation_counterexample :
    100 < fxLongStr.reprStr.length ∧
    (Variable.from_value "x" fxLongStr pyNone).repr_value.length = 100 ∧
    (Variable.from_value "x" fxLongStr pyNone).repr_value ≠
      String.mk (List.replicate 100 'a') ++ "..." := by decide

/-- C5 (amended): a rendering longer than 100 characters is truncated to
its first 97 characters plus a three-character ellipsis marker, for a total
of exactly 100 characters (within the claimed 103-character bound), and the
fixed sentinel is substituted when rendering fails. -/
theorem c5_truncation_amended :
    (∀ (name : String) (v prev : Value), v.reprOk = true → 100 < v.reprStr.length →
      (Variable.from_value name v prev).repr_value =
        String.mk (v.reprStr.data.take 97) ++ "..." ∧
      (Variable.from_value name v prev).repr_value.length = 100) ∧
    (∀ (name : String) (v prev : Value), v.reprOk = false →
      (Variable.from_value name v prev).repr_value = "<repr error>") := by
  constructor
  · intro name v prev hok hlen
    have he : (Variable.from_value name v prev).repr_value =
        String.mk (v.reprStr.data.take 97) ++ "..." := by
      rw [from_value_repr, if_pos hok]
      unfold truncateRepr
      rw [if_pos hlen]
    refine ⟨he, ?_⟩
    rw [he, String.length_append, String.length_mk, List.length_take,
      show ("..." : String).length = 3 from rfl]
    have : v.reprStr.data.length = v.reprStr.length := rfl
    omega
  · intro name v prev hbad
    rw [from_value_repr, if_neg (by simp [hbad])]

/-- C5 witness: the amended statement instantiated at a 200-character
rendering and at a value whose rendering fails. -/
theorem c5_truncation_amended_witness :
    fxLongStr.reprOk = true ∧ 100 < fxLongStr.reprStr.length ∧
    ((Variable.from_value "x" fxLongStr pyNone).repr_value =
        String.mk (fxLongStr.reprStr.data.take 97) ++ "..." ∧
      (Variable.from_value "x" fxLongStr pyNone).repr_value.length = 100) ∧
    fxBadRepr.reprOk = false ∧
    (Variable.from_value "y" fxBadRepr pyNone).repr_value = "<repr error>" :=
  ⟨rfl, by decide,
    c5_truncation_amended.1 "x" fxLongStr pyNone rfl (by decide),
    rfl, c5_truncation_amended.2 "y" fxBadRepr pyNone rfl⟩

/-! ## C8: synthesized explanation text -/

/-- C8 counterexample: a RETURN step carrying a value uses the raw,
untruncated `repr` of the value, not the (truncated) printable
representation: for a 200-character rendering the explanation keeps all 200
characters while the printable representation has 100. -/
theorem c8_explanation_counterexample :
    generateExplanation .RETURN "return x" [] fxLongStr ≠
      "Returning: " ++ (Variable.from_value "r" fxLongStr pyNone).repr_value ∧
    generateExplanation .RETURN "return x" [] fxLongStr =
      "Returning: " ++ fxLongStr.reprStr := by decide

/-- C8 (amended): an ASSIGNMENT step with exactly one changed variable
yields "Set name to printable" with that variable's printable
representation; a RETURN step whose value is not `None` yields
"Returning: repr" with the raw untruncated rendering of the value; a
CONDITION step yields "Evaluating condition: line" with the stripped line
content. -/
theorem c8_explanation_amended :
    (∀ (line : String) (vars : List (String × Variable)) (arg : Value) (v : Variable),
      (vars.map Prod.snd).filter (fun w => w.changed) = [v] →
      generateExplanation .ASSIGNMENT line vars arg =
        "Set " ++ v.name ++ " to " ++ v.repr_value) ∧
    (∀ (line : String) (vars : List (String × Variable)) (arg : Value),
      arg.isNone = false →
      generateExplanation .RETURN line vars arg = "Returning: " ++ arg.reprStr) ∧
    (∀ (line : String) (vars : List (String × Variable)) (arg : Value),
      generateExplanation .CONDITION line vars arg =
        "Evaluating condition: " ++ pyStrip line) := by
  refine ⟨?_, ?_, ?_⟩
  · intro line vars arg v h
    unfold generateExplanation
    rw [h]
  · intro line vars arg h
    unfold generateExplanation
    rw [h]
    rfl
  · intro line vars arg
    rfl

/-- C8 witness: the amended statement instantiated at concrete inputs —
one changed variable `x = 5`, a non-None return value `7`, and a concrete
condition line. -/
theorem c8_explanation_amended_witness :
    ([("x", Variable.from_value "x" fxFive (mkVal "int" "4"))].map Prod.snd).filter
        (fun w => w.changed) = [Variable.from_value "x" fxFive (mkVal "int" "4")] ∧
    generateExplanation .ASSIGNMENT "x = 5"
        [("x", Variable.from_value "x" fxFive (mkVal "int" "4"))] pyNone =
      "Set " ++ (Variable.from_value "x" fxFive (mkVal "int" "4")).name ++ " to " ++
        (Variable.from_value "x" fxFive (mkVal "int" "4")).repr_value ∧
    fxSeven.isNone = false ∧
    generateExplanation .RETURN "return x" [] fxSeven = "Returning: " ++ fxSeven.reprStr ∧
    generateExplanation .CONDITION "  if x > 3:" [] pyNone =
      "Evaluating condition: " ++ pyStrip "  if x > 3:" :=
  ⟨by decide,
    c8_explanation_amended.1 "x = 5" [("x", Variable.from_value "x" fxFive (mkVal "int" "4"))]
      pyNone (Variable.from_value "x" fxFive (mkVal "int" "4")) (by decide),
    rfl,
    c8_explanation_amended.2.1 "return x" [] fxSeven rfl,
    c8_explanation_amended.2.2 "  if x > 3:" [] pyNone⟩

/-! ## Trace-level internal lemmas -/

/-- `Tracer.trace` on source that fails to compile. -/
theorem trace_parseError (max_steps : Nat) (code msg : String) (lineno : Nat) :
    Tracer.trace max_steps code (.parseError msg lineno) =
      .ok { code := code, steps := [], final_output := "", final_vars := [],
            success := false,
            error_message := "SyntaxError: " ++ msg ++ " (line " ++ toString lineno ++ ")",
            total_lines := (pySplitNl (pyStrip code)).length } := rfl

/-! ## C2: the step ceiling -/

/-- C2 counterexample: with `max_steps = 1`, a run that records one step,
latches the stop, and then terminates with an uncaught failure yields a
trace of 2 steps — the synthetic EXCEPTION step is appended without
checking the ceiling, so the count exceeds `max_steps`. -/
theorem c2_step_ceiling_counterexample :
    (Tracer.trace 1 "x = 1/0" (.ok fxRunErr)).toOption.map (fun t => t.steps.length) =
      some 2 ∧ ¬(2 ≤ 1) := by decide

/-- C2 (amended): the number of steps in a returned trace is at most
`max_steps + 1`, and at most `max_steps` whenever the run succeeded; the
single overshoot is the synthetic final EXCEPTION step that a runtime
failure appends after the ceiling has already been reached. -/
theorem c2_step_ceiling_amended (max_steps : Nat) (code : String) (compiled : CompileResult)
    (t : ExecutionTrace) (h : Tracer.trace max_steps code compiled = .ok t) :
    t.steps.length ≤ max_steps + 1 ∧ (t.success = true → t.steps.length ≤ max_steps) := by
  cases compiled with
  | parseError msg lineno =>
    rw [trace_parseError] at h
    injection h with h
    subst h
    exact ⟨by simp, by simp⟩
  | ok run =>
    obtain ⟨h1, h2, _⟩ := stepsWF_cbState max_steps code run
    rw [cbState_max_steps] at h2
    cases houtc : run.outcome with
    | normal =>
      rw [trace_normal _ _ _ houtc] at h
      injection h with h
      subst h
      exact ⟨by simp only; omega, fun _ => by simp only; omega⟩
    | raises e =>
      cases he : e.isException with
      | false =>
        rw [trace_raises_base _ _ _ _ houtc he] at h
        exact absurd h (by simp)
      | true =>
        rw [trace_raises_exc _ _ _ _ houtc he] at h
        injection h with h
        subst h
        refine ⟨?_, fun hs => by simp at hs⟩
        cases hl : (cbState max_steps code run).steps.getLast? with
        | none => simp only [hl]; omega
        | some lastcb => simp only [hl, List.length_append, List.length_cons,
            List.length_nil]; omega

/-- C2 witness: the amended bound instantiated on a concrete successful
run. -/
theorem c2_step_ceiling_amended_witness :
    ∃ t, Tracer.trace 10 "x = 5" (.ok fxRunOk) = .ok t ∧
      t.steps.length ≤ 10 + 1 ∧ (t.success = true → t.steps.length ≤ 10) := by
  obtain ⟨t, ht⟩ : ∃ t, Tracer.trace 10 "x = 5" (.ok fxRunOk) = .ok t := ⟨_, rfl⟩
  obtain ⟨ha, hb⟩ := c2_step_ceiling_amended 10 "x = 5" (.ok fxRunOk) t ht
  exact ⟨t, ht, ha, hb⟩

/-! ## C3: the entry point never raises -/

/-- C3 counterexample: a traced program that raises `SystemExit` (a bare
`BaseException`, not an `Exception`) escapes the `except Exception` handler
and propagates out of `Tracer.trace`. -/
theorem c3_no_raise_counterexample :
    Tracer.trace 1000 "import sys; sys.exit(1)" (.ok fxRunExit) =
      .error fxSysExit := rfl

/-- C3 (amended): `Tracer.trace` returns an `ExecutionTrace` whenever the
traced code does not terminate with a bare `BaseException`; failures of
`Exception` class never propagate to the caller, but `BaseException`-only
failures (`SystemExit`, `KeyboardInterrupt`) do. -/
theorem c3_no_raise_amended (max_steps : Nat) (code : String) (compiled : CompileResult)
    (h : raisesBaseOnly compiled = false) :
    ∃ t, Tracer.trace max_steps code compiled = .ok t := by
  cases compiled with
  | parseError msg lineno => exact ⟨_, trace_parseError _ _ _ _⟩
  | ok run =>
    cases houtc : run.outcome with
    | normal => exact ⟨_, trace_normal _ _ _ houtc⟩
    | raises e =>
      have he : e.isException = true := by
        rw [show raisesBaseOnly (.ok run) =
            (match run.outcome with
             | .raises ex => !ex.isException
             | .normal => false) from rfl, houtc] at h
        simpa using h
      exact ⟨_, trace_raises_exc _ _ _ _ houtc he⟩

/-- C3 witness: the amended statement instantiated on a concrete
`Exception`-terminated run. -/
theorem c3_no_raise_amended_witness :
    raisesBaseOnly (.ok fxRunErr) = false ∧
    ∃ t, Tracer.trace 10 "x = 1/0" (.ok fxRunErr) = .ok t :=
  ⟨rfl, c3_no_raise_amended 10 "x = 1/0" (.ok fxRunErr) rfl⟩

/-! ## C4: runtime failure shape -/

/-- C4: when an uncaught `Exception` escapes execution of successfully
compiled source, the returned trace has at least one step, `success` is
false, `error_message` is exactly "kind: message", and a synthetic final
EXCEPTION step summarizing the failure is the last step.  The hypotheses
record the interface contract and host behaviour: `max_steps` is a positive
integer (§6 of the spec), and executing compiled source always delivers at
least one event from the traced file (the module-frame call event).
A bare `BaseException` would instead propagate (see C3), so no trace is
returned at all in that case. -/
theorem c4_runtime_failure (max_steps : Nat) (code : String) (run : ProgramRun) (e : PyExc)
    (hmax : 1 ≤ max_steps) (hev : ∃ ev ∈ run.events, ev.inTracedFile = true)
    (houtc : run.outcome = .raises e) (hexc : e.isException = true) :
    ∃ t, Tracer.trace max_steps code (.ok run) = .ok t ∧
      t.steps ≠ [] ∧ t.success = false ∧
      t.error_message = e.excTypeName ++ ": " ++ e.message ∧
      ∃ last, t.steps.getLast? = some last ∧ last.step_type = .EXCEPTION ∧
        last.exception = some e ∧
        last.explanation = "Exception raised: " ++ (e.excTypeName ++ ": " ++ e.message) := by
  have hne : (cbState max_steps code run).steps ≠ [] := by
    apply runEvents_steps_ne_nil
    · rfl
    · exact hmax
    · exact hev
  cases hl : (cbState max_steps code run).steps.getLast? with
  | none => exact absurd (List.getLast?_eq_none_iff.mp hl) hne
  | some lastcb =>
    refine ⟨_, trace_raises_exc _ _ _ _ houtc hexc, ?_, rfl, rfl, ?_⟩
    · simp only [hl]
      simp
    · refine ⟨exceptionStep (cbState max_steps code run) lastcb e, ?_, rfl, rfl, rfl⟩
      simp only [hl]
      exact List.getLast?_concat _

/-- C4 witness: the failure shape instantiated on a concrete run raising
`ZeroDivisionError`. -/
theorem c4_runtime_failure_witness :
    1 ≤ 10 ∧ (∃ ev ∈ fxRunErr.events, ev.inTracedFile = true) ∧
    fxRunErr.outcome = .raises fxZde ∧ fxZde.isException = true ∧
    (∃ t, Tracer.trace 10 "x = 1/0" (.ok fxRunErr) = .ok t ∧
      t.steps ≠ [] ∧ t.success = false ∧
      t.error_message = fxZde.excTypeName ++ ": " ++ fxZde.message ∧
      ∃ last, t.steps.getLast? = some last ∧ last.step_type = .EXCEPTION ∧
        last.exception = some fxZde ∧
        last.explanation =
          "Exception raised: " ++ (fxZde.excTypeName ++ ": " ++ fxZde.message)) :=
  ⟨by decide, by decide, rfl, rfl,
    c4_runtime_failure 10 "x = 1/0" fxRunErr fxZde (by decide) (by decide) rfl rfl⟩

/-! ## C7: parse failure -/

/-- C7: on source that does not compile, the returned trace has zero steps,
`success` is false, and `error_message` holds the compiler diagnostic and
the offending line number; the event callback is never invoked (in the
model, the parse-error branch of `Tracer.trace` consumes no events — only
the `.ok` branch delivers events to the callback). -/
theorem c7_parse_failure (max_steps : Nat) (code msg : String) (lineno : Nat) :
    Tracer.trace max_steps code (.parseError msg lineno) =
      .ok { code := code, steps := [], final_output := "", final_vars := [],
            success := false,
            error_message := "SyntaxError: " ++ msg ++ " (line " ++ toString lineno ++ ")",
            total_lines := (pySplitNl (pyStrip code)).length } := rfl

/-! ## C6: gap-free step numbering -/

/-- C6: for every returned trace, the `step_number` values of the ordered
step sequence are exactly `1, 2, ..., N` — including the number assigned to
a synthetic final EXCEPTION step. -/
theorem c6_step_numbers (max_steps : Nat) (code : String) (compiled : CompileResult)
    (t : ExecutionTrace) (h : Tracer.trace max_steps code compiled = .ok t) :
    t.steps.map ExecutionStep.step_number = List.range' 1 t.steps.length := by
  cases compiled with
  | parseError msg lineno =>
    rw [trace_parseError] at h
    injection h with h
    subst h
    rfl
  | ok run =>
    obtain ⟨h1, h2, h3, _⟩ := stepsWF_cbState max_steps code run
    cases houtc : run.outcome with
    | normal =>
      rw [trace_normal _ _ _ houtc] at h
      injection h with h
      subst h
      exact h3
    | raises e =>
      cases he : e.isException with
      | false =>
        rw [trace_raises_base _ _ _ _ houtc he] at h
        exact absurd h (by simp)
      | true =>
        rw [trace_raises_exc _ _ _ _ houtc he] at h
        injection h with h
        subst h
        simp only
        cases hl : (cbState max_steps code run).steps.getLast? with
        | none => exact h3
        | some lastcb =>
          rw [List.map_append, List.length_append, h3]
          simp only [List.map_cons, List.map_nil, List.length_cons, List.length_nil]
          rw [show (exceptionStep (cbState max_steps code run) lastcb e).step_number =
              (cbState max_steps code run).steps.length + 1 from rfl]
          exact (range'_one_concat _).symm

/-- C6 witness: the numbering instantiated on a concrete failing run whose
trace ends with a synthetic EXCEPTION step. -/
theorem c6_step_numbers_witness :
    ∃ t, Tracer.trace 10 "x = 1/0" (.ok fxRunErr) = .ok t ∧
      t.steps.map ExecutionStep.step_number = List.range' 1 t.steps.length := by
  obtain ⟨t, ht⟩ : ∃ t, Tracer.trace 10 "x = 1/0" (.ok fxRunErr) = .ok t := ⟨_, rfl⟩
  exact ⟨t, ht, c6_step_numbers 10 "x = 1/0" (.ok fxRunErr) t ht⟩

/-! ## C9: exclusions from the variables map -/

/-- C9: no step's variables map contains an internally-named binding (name
starting with an underscore) or a callable binding not explicitly marked as
a trace target. -/
theorem c9_variable_exclusions (max_steps : Nat) (code : String) (compiled : CompileResult)
    (t : ExecutionTrace) (h : Tracer.trace max_steps code compiled = .ok t) :
    ∀ step ∈ t.steps, ∀ p ∈ step.vars,
      strStarts p.1 "_" = false ∧ (p.2.value.callable = true → p.2.value.traced = true) := by
  cases compiled with
  | parseError msg lineno =>
    rw [trace_parseError] at h
    injection h with h
    subst h
    intro step hstep
    simp at hstep
  | ok run =>
    obtain ⟨_, _, _, h4, h5, _, _⟩ := stepsWF_cbState max_steps code run
    cases houtc : run.outcome with
    | normal =>
      rw [trace_normal _ _ _ houtc] at h
      injection h with h
      subst h
      exact fun step hstep => h5 step hstep
    | raises e =>
      cases he : e.isException with
      | false =>
        rw [trace_raises_base _ _ _ _ houtc he] at h
        exact absurd h (by simp)
      | true =>
        rw [trace_raises_exc _ _ _ _ houtc he] at h
        injection h with h
        subst h
        intro step hstep
        simp only at hstep
        cases hl : (cbState max_steps code run).steps.getLast? with
        | none =>
          simp only [hl] at hstep
          exact h5 step hstep
        | some lastcb =>
          simp only [hl] at hstep
          rcases List.mem_append.mp hstep with hs | hs
          · exact h5 step hs
          · rw [List.mem_singleton.mp hs]
            exact fun p hp => h4 p hp

/-- C9 witness: the exclusion property instantiated on a concrete run. -/
theorem c9_variable_exclusions_witness :
    ∃ t, Tracer.trace 10 "x = 5" (.ok fxRunOk) = .ok t ∧
      ∀ step ∈ t.steps, ∀ p ∈ step.vars,
        strStarts p.1 "_" = false ∧
        (p.2.value.callable = true → p.2.value.traced = true) := by
  obtain ⟨t, ht⟩ : ∃ t, Tracer.trace 10 "x = 5" (.ok fxRunOk) = .ok t := ⟨_, rfl⟩
  exact ⟨t, ht, c9_variable_exclusions 10 "x = 5" (.ok fxRunOk) t ht⟩

/-! ## C10: monotone captured output -/

/-- C10: among the steps recorded by the event callback, outputs grow
monotonically (the output of an earlier step is a prefix of the output of a
later step), and every such step's output is a prefix of the returned
trace's `final_output`.  (The synthetic EXCEPTION step is not recorded by
the callback; its `output` field is left at the dataclass default.) -/
theorem c10_output_monotone (max_steps : Nat) (code : String) (run : ProgramRun)
    (t : ExecutionTrace) (h : Tracer.trace max_steps code (.ok run) = .ok t) :
    (∀ (i j : Nat) (hi : i < (cbState max_steps code run).steps.length)
        (hj : j < (cbState max_steps code run).steps.length), i < j →
        ((cbState max_steps code run).steps[i]).output.data <+:
          ((cbState max_steps code run).steps[j]).output.data) ∧
    ∀ s ∈ (cbState max_steps code run).steps, s.output.data <+: t.final_output.data := by
  obtain ⟨_, _, _, _, _, h6, h7⟩ := stepsWF_cbState max_steps code run
  refine ⟨fun i j hi hj hij => List.pairwise_iff_getElem.mp h6 i j hi hj hij, ?_⟩
  intro s hs
  have hbuf := h7 s hs
  have hfin : t.final_output =
      (cbState max_steps code run).output_buffer ++ run.trailingOutput := by
    cases houtc : run.outcome with
    | normal =>
      rw [trace_normal _ _ _ houtc] at h
      injection h with h
      subst h
      rfl
    | raises e =>
      cases he : e.isException with
      | false =>
        rw [trace_raises_base _ _ _ _ houtc he] at h
        exact absurd h (by simp)
      | true =>
        rw [trace_raises_exc _ _ _ _ houtc he] at h
        injection h with h
        subst h
        rfl
  rw [hfin, str_data_append]
  exact hbuf.trans (listPrefExtend _ _)

/-- C10 witness: the monotone-output property instantiated on a concrete
run that writes output between steps. -/
theorem c10_output_monotone_witness :
    ∃ t, Tracer.trace 10 "x = 5" (.ok fxRunOk) = .ok t ∧
      ((∀ (i j : Nat) (hi : i < (cbState 10 "x = 5" fxRunOk).steps.length)
          (hj : j < (cbState 10 "x = 5" fxRunOk).steps.length), i < j →
          ((cbState 10 "x = 5" fxRunOk).steps[i]).output.data <+:
            ((cbState 10 "x = 5" fxRunOk).steps[j]).output.data) ∧
        ∀ s ∈ (cbState 10 "x = 5" fxRunOk).steps,
          s.output.data <+: t.final_output.data) := by
  obtain ⟨t, ht⟩ : ∃ t, Tracer.trace 10 "x = 5" (.ok fxRunOk) = .ok t := ⟨_, rfl⟩
  exact ⟨t, ht, c10_output_monotone 10 "x = 5" fxRunOk t ht⟩
